import Mathlib

/-!
Verification of `crates/project/src/terminals.rs`: terminal session lifecycle,
virtual-environment activation, environment merging and the session registry.

Modelling conventions:
* a filesystem path is a list of components (`List String`); `Path::join`
  appends a component; `Path::new("")` is `[]`; `to_string_lossy` renders the
  components joined by `"/"`;
* the filesystem is a parameter `fs : List String → Bool` giving the result of
  `Path::exists` on each path;
* an environment-variable map (`collections::HashMap<String, String>`) is a
  function `String → Option String`; `insert` overwrites;
* command bytes are `List Nat` (each entry one byte); the verbs are ASCII so
  their UTF-8 bytes coincide with their code points;
* the session registry `Terminals.local_handles` is the list of entity ids of
  the weak handles it holds.
-/

namespace Terminals

/-- Render of `Path::to_string_lossy` for our component-list paths. -/
def pathToString (p : List String) : String :=
  String.intercalate "/" p

/-- The `ActivateScript` enum from `terminal_settings`. -/
inductive ActivateScript where
  | Default
  | Csh
  | Fish
  | Nushell
deriving DecidableEq, Repr

/-- `VenvSettingsContent`: candidate directory names in declared order plus
the activation-script dialect. -/
structure VenvSettingsContent where
  directories : List String
  activate_script : ActivateScript
deriving Repr

/-- The activation-script file name chosen per dialect
(`find_activate_script_path`, first `match`). -/
def activateScriptName : ActivateScript → String
  | .Default => "activate"
  | .Csh => "activate.csh"
  | .Fish => "activate.fish"
  | .Nushell => "activate.nu"

/-- `Project::find_activate_script_path`: for each candidate directory name in
declared order, build `base/name/bin/<script>` and return the first such path
that exists on disk. -/
def find_activate_script_path (settings : VenvSettingsContent)
    (venv_base_directory : List String) (fs : List String → Bool) :
    Option (List String) :=
  settings.directories.findSome? fun virtual_environment_name =>
    let path := venv_base_directory ++
      [virtual_environment_name, "bin", activateScriptName settings.activate_script]
    if fs path then some path else none

/-- Instrumented probe over an explicit candidate list: returns the first
existing candidate together with the number of `exists` checks performed. -/
def probeCandidates (fs : List String → Bool) :
    List (List String) → Option (List String) × Nat
  | [] => (none, 0)
  | p :: rest =>
      if fs p then (some p, 1)
      else
        let r := probeCandidates fs rest
        (r.1, r.2 + 1)

/-- The candidate script paths probed by `find_activate_script_path`,
in declared order. -/
def scriptCandidates (settings : VenvSettingsContent)
    (venv_base_directory : List String) : List (List String) :=
  settings.directories.map fun name =>
    venv_base_directory ++ [name, "bin", activateScriptName settings.activate_script]

/-- `Project::get_activate_command`: the verb is `"overlay use"` for Nushell
and `"source"` for every other dialect. -/
def get_activate_command (settings : VenvSettingsContent) : String :=
  match settings.activate_script with
  | .Nushell => "overlay use"
  | _ => "source"

/-- UTF-8 bytes of an ASCII string (every string we apply this to is ASCII,
where code points and UTF-8 bytes coincide). -/
def strBytes (s : String) : List Nat :=
  s.data.map Char.toNat

/-- The byte sequence built by `Project::activate_python_virtual_environment`:
verb bytes, a space (32), a double quote (34), the raw path bytes, a closing
double quote and a newline (10), concatenated fragment by fragment. -/
def activationCommand (activate_command : String) (activate_script : List Nat) :
    List Nat :=
  strBytes activate_command ++ [32] ++ [34] ++ activate_script ++ [34] ++ [10]

/-- An environment-variable map (`collections::HashMap<String, String>`). -/
def Env := String → Option String

/-- `HashMap::insert`: overwrite the binding of `k`. -/
def insertEnv (env : Env) (k v : String) : Env :=
  fun x => if x = k then some v else env x

/-- `HashMap::extend` (`env.extend(spawn_task.env)`): insert every pair in
order, later pairs and the extension overriding existing bindings. -/
def extendEnv (env : Env) (kvs : List (String × String)) : Env :=
  kvs.foldl (fun e kv => insertEnv e kv.1 kv.2) env

/-- `std::env::split_paths` on Unix: split the `PATH` string on `:`
(modelled on the character list underlying the string). -/
def split_paths (s : String) : List String :=
  (s.data.splitOn ':').map String.mk

/-- `std::env::join_paths` on Unix: join with `:`, failing when a component
itself contains the separator (modelled on the underlying character lists). -/
def join_paths (l : List String) : Option String :=
  if l.all (fun s => !(s.data.contains ':')) then
    some (String.mk ([':'].intercalate (l.map String.data)))
  else none

/-- `Project::set_python_venv_path_for_tasks`: find the first candidate
directory under `venv_base_directory` that exists; when found, set
`VIRTUAL_ENV` to its path and set `PATH` to its `bin` directory followed by
the entries of the inherited `PATH` (`pathVar` is `std::env::var_os("PATH")`);
when no candidate exists, leave the environment untouched. A `join_paths`
failure is logged and leaves `PATH` unset. -/
def set_python_venv_path_for_tasks (settings : VenvSettingsContent)
    (venv_base_directory : List String) (fs : List String → Bool)
    (pathVar : Option String) (env : Env) : Env :=
  let activate_path := settings.directories.findSome? fun virtual_environment_name =>
    let path := venv_base_directory ++ [virtual_environment_name]
    if fs path then some path else none
  match activate_path with
  | some path =>
    let env1 := insertEnv env "VIRTUAL_ENV" (pathToString path)
    let path_bin := path ++ ["bin"]
    match pathVar with
    | some paths =>
      match join_paths (pathToString path_bin :: split_paths paths) with
      | some new_path => insertEnv env1 "PATH" new_path
      | none => env1
    | none => insertEnv env1 "PATH" (pathToString (path ++ ["bin"]))
  | none => env

/-- The release observer body installed by `create_terminal`: look up the
position of the handle whose entity id matches the released terminal and
remove it; when no such handle remains, leave the registry unchanged. -/
def releaseHandle (handles : List Nat) (id : Nat) : List Nat :=
  match handles.findIdx? (fun terminal => terminal == id) with
  | some index => handles.eraseIdx index
  | none => handles

/-- The `Shell` setting from `terminal_settings`. -/
inductive Shell where
  | System
  | Program (program : String)
  | WithArguments (program : String) (args : List String)

/-- `terminal::TaskStatus`; `create_terminal` only ever constructs `Running`. -/
inductive TaskStatus where
  | Running
deriving DecidableEq

/-- The fields of `task::SpawnInTerminal` read by `create_terminal`. -/
structure SpawnInTerminal where
  id : Nat
  full_label : String
  label : String
  command_label : String
  command : String
  args : List String
  env : List (String × String)
  cwd : Option (List String)

/-- `terminal::TaskState` as built by `create_terminal` (the completion
receiver, an opaque channel endpoint, is not represented). -/
structure TaskState where
  id : Nat
  full_label : String
  label : String
  command_label : String
  status : TaskStatus

/-- `settings::SettingsLocation`. -/
structure SettingsLocation where
  worktree_id : Nat
  path : List String
deriving DecidableEq

/-- The fields of `TerminalSettings` read by `create_terminal`;
`detect_venv` is already passed through `VenvSettings::as_option`. -/
structure TerminalSettings where
  env : Env
  detect_venv : Option VenvSettingsContent
  shell : Shell

/-- Observable outcome of the local branch of `create_terminal`. -/
structure CreateTerminalResult where
  result : Except String Nat
  local_handles : List Nat
  envUsed : Env
  task : Option TaskState
  shell : Shell
  inputBytes : List Nat
  venvBaseDirectory : List String
  settingsLocation : Option SettingsLocation

/-- The local branch of `create_terminal` (source lines 72–185). External
collaborators are parameters: `find_local_worktree` resolves a path to a
worktree id and relative path, `getSettings` is `TerminalSettings::get`,
`fs` answers `Path::exists`, `pathVar` is the inherited `PATH`, and `build`
is the outcome of `TerminalBuilder::new` (the new terminal's entity id, or
the construction error). Returns the caller-visible result, the registry
after the call, the environment and shell handed to the builder, the task
state, the activation bytes written into the new terminal's input (empty when
none are written), and the venv base directory and settings location that
were used. -/
def create_terminal_local (working_directory : Option (List String))
    (spawn_task : Option SpawnInTerminal)
    (find_local_worktree : List String → Option (Nat × List String))
    (getSettings : Option SettingsLocation → TerminalSettings)
    (fs : List String → Bool) (pathVar : Option String)
    (build : Except String Nat) (handles : List Nat) : CreateTerminalResult :=
  let worktree :=
    (working_directory.bind find_local_worktree).orElse fun _ =>
      (spawn_task.bind fun t => t.cwd).bind find_local_worktree
  let settings_location := worktree.map fun wt =>
    SettingsLocation.mk wt.1 wt.2
  let is_terminal := spawn_task.isNone
  let settings := getSettings settings_location
  let python_settings := settings.detect_venv
  let venv_base_directory := working_directory.getD []
  let built : Option TaskState × Shell × Env :=
    match spawn_task with
    | some t =>
      let env1 := extendEnv settings.env t.env
      let env2 :=
        match python_settings with
        | some ps =>
          set_python_venv_path_for_tasks ps venv_base_directory fs pathVar env1
        | none => env1
      (some { id := t.id, full_label := t.full_label, label := t.label,
              command_label := t.command_label, status := .Running },
       Shell.WithArguments t.command t.args, env2)
    | none => (none, settings.shell, settings.env)
  match build with
  | .error e =>
    { result := .error e, local_handles := handles, envUsed := built.2.2,
      task := built.1, shell := built.2.1, inputBytes := [],
      venvBaseDirectory := venv_base_directory,
      settingsLocation := settings_location }
  | .ok id =>
    let inputBytes :=
      if is_terminal then
        match python_settings with
        | some ps =>
          match find_activate_script_path ps venv_base_directory fs with
          | some script =>
            activationCommand (get_activate_command ps)
              (strBytes (pathToString script))
          | none => []
        | none => []
      else []
    { result := .ok id, local_handles := handles ++ [id], envUsed := built.2.2,
      task := built.1, shell := built.2.1, inputBytes := inputBytes,
      venvBaseDirectory := venv_base_directory,
      settingsLocation := settings_location }

/-- A registry event: a terminal is created with a given entity id, or the
release observer fires for a given entity id. -/
inductive SessionEvent where
  | create (id : Nat)
  | release (id : Nat)
deriving DecidableEq

/-- One registry transition: creation pushes the new weak handle, release
runs the observer body `releaseHandle`. -/
def stepRegistry (handles : List Nat) : SessionEvent → List Nat
  | .create id => handles ++ [id]
  | .release id => releaseHandle handles id

/-- The registry contents after a sequence of events, starting empty. -/
def runRegistry (events : List SessionEvent) : List Nat :=
  events.foldl stepRegistry []

/-- The entity ids created along a sequence of events, in order. -/
def createdIds (events : List SessionEvent) : List Nat :=
  events.filterMap fun e =>
    match e with
    | .create id => some id
    | .release _ => none

/-- One step of the reference "still-live" tracker for a fixed session id:
a creation of that id makes it live, a release of that id ends it, any other
event leaves it alone. -/
def liveStep (id : Nat) (live : Bool) : SessionEvent → Bool
  | .create i => if i = id then true else live
  | .release i => if i = id then false else live

/-- A session is live after a sequence of events when its most recent
creation is not followed by a release. -/
def liveAfter (events : List SessionEvent) (id : Nat) : Bool :=
  events.foldl (liveStep id) false

/-- The continue/break signal returned by the remote input closure
(`std::ops::ControlFlow` with unit payloads). -/
inductive ControlFlowSignal where
  | Continue
  | Break
deriving DecidableEq

/-- The acknowledgment handling of the closure installed for remote terminals
(`create_terminal`, remote branch): a successful response — `log_err`
yielding `Some` — gives `Continue`, any failure — `log_err` yielding
`None` — gives `Break`. -/
def remoteInputOutcome (response : Option Unit) : ControlFlowSignal :=
  match response with
  | some _ => .Continue
  | none => .Break

/-- Modelled from the spec: the per-session forwarding loop lives inside
`RemotePty` (not part of this file); it feeds each input chunk to the
installed closure and, on `Break`, stops forwarding and marks the session
closed, while `Continue` lets it proceed with the next chunk. Each list entry
pairs a chunk with the simulated acknowledgment of its request; the result is
the list of chunks actually sent and whether the session ended closed. -/
def forwardLoop : List (List Nat × Option Unit) → List (List Nat) × Bool
  | [] => ([], false)
  | (chunk, response) :: rest =>
    match remoteInputOutcome response with
    | .Continue =>
      let r := forwardLoop rest
      (chunk :: r.1, r.2)
    | .Break => ([chunk], true)

/-- `HashMap::insert` on the remote-handles map (`u64` terminal id to the
outbound sender, represented by a channel id). -/
def insertRemote (handles : List (Nat × Nat)) (k v : Nat) : List (Nat × Nat) :=
  (k, v) :: handles.filter fun p => p.1 ≠ k

/-- Observable outcome of the remote branch of `create_terminal`. -/
structure RemoteCreateResult where
  result : Except String Unit
  remote_handles : List (Nat × Nat)

/-- The remote branch of `create_terminal` (source lines 37–71). The remote
session-id allocation is a `todo!` stub in the source; modelled from the
spec's open-session handshake as the parameter `new_terminal_id`, already
allocated. `remote_id` is `Project::remote_id`, `remote_pty` the outcome of
`RemotePty::new` carrying the host sender channel. The code after the
registry insertion is a second `todo!` stub; its result is reported as
success here, which only the error paths of this model rely on not being. -/
def create_terminal_remote (new_terminal_id : Nat) (remote_id : Option Nat)
    (remote_pty : Except String Nat) (remote_handles : List (Nat × Nat)) :
    RemoteCreateResult :=
  match remote_id with
  | none =>
    { result := .error "remote project without a remote id",
      remote_handles := remote_handles }
  | some _project_id =>
    match remote_pty with
    | .error e => { result := .error e, remote_handles := remote_handles }
    | .ok host_tx =>
      { result := .ok (),
        remote_handles := insertRemote remote_handles new_terminal_id host_tx }

/-! ### Helper lemmas -/

/-- Probing with `findSome?` and an existence test returns the first
candidate (in order) that satisfies the test. -/
theorem findSome?_exists_eq_find? (fs : List String → Bool)
    (f : String → List String) (dirs : List String) :
    (dirs.findSome? fun n => if fs (f n) then some (f n) else none)
      = (dirs.map f).find? fs := by
  induction dirs with
  | nil => rfl
  | cons d dirs ih =>
    simp only [List.findSome?_cons, List.map_cons, List.find?_cons]
    cases h : fs (f d) <;> simp [h, ih]

/-- The instrumented probe returns the first existing candidate and performs
one existence check per candidate up to and including the first hit (or one
per candidate when none exists). -/
theorem probeCandidates_spec (fs : List String → Bool)
    (cands : List (List String)) :
    probeCandidates fs cands
      = (cands.find? fs,
          min ((cands.takeWhile fun p => !fs p).length + 1) cands.length) := by
  induction cands with
  | nil => rfl
  | cons p rest ih =>
    cases h : fs p with
    | true =>
      simp only [probeCandidates, h, if_pos, List.find?_cons, List.takeWhile_cons]
      simp [h]
    | false =>
      simp only [probeCandidates, h, List.find?_cons, List.takeWhile_cons, ih]
      simp [h]
      omega

/-- Applying an extended environment: the last matching extension entry wins;
otherwise the base environment answers. -/
theorem extendEnv_apply (env : Env) (kvs : List (String × String))
    (k : String) :
    extendEnv env kvs k
      = match (kvs.filter fun kv => kv.1 = k).getLast? with
        | some kv => some kv.2
        | none => env k := by
  induction kvs using List.reverseRecOn generalizing env with
  | nil => rfl
  | append_singleton l x ih =>
    have hfold : extendEnv env (l ++ [x]) = insertEnv (extendEnv env l) x.1 x.2 := by
      simp [extendEnv, List.foldl_append]
    rw [hfold]
    by_cases hx : x.1 = k
    · have : ((l ++ [x]).filter fun kv => kv.1 = k) = (l.filter fun kv => kv.1 = k) ++ [x] := by
        simp [List.filter_append, List.filter_cons, hx]
      simp [this, List.getLast?_concat, insertEnv, hx.symm]
    · have : ((l ++ [x]).filter fun kv => kv.1 = k) = l.filter fun kv => kv.1 = k := by
        simp [List.filter_append, List.filter_cons, hx]
      have hk : ¬ k = x.1 := fun h => hx h.symm
      simp [this, insertEnv, hk, ih]

/-- The release observer body is `List.erase` on entity ids. -/
theorem releaseHandle_eq_erase (handles : List Nat) (id : Nat) :
    releaseHandle handles id = handles.erase id := by
  induction handles with
  | nil => rfl
  | cons x xs ih =>
    by_cases hx : x = id
    · simp [releaseHandle, List.findIdx?_cons, hx, List.erase_cons]
    · have hbeq : (x == id) = false := by simp [hx]
      have step : releaseHandle (x :: xs) id = x :: releaseHandle xs id := by
        simp only [releaseHandle, List.findIdx?_cons, hbeq, if_false,
          List.findIdx?_succ]
        cases h : List.findIdx? (fun terminal => terminal == id) xs with
        | none => simp [h]
        | some i => simp [h, List.eraseIdx_cons_succ]
      rw [step, ih, List.erase_cons, if_neg]
      simp [hbeq]

/-- No element of a piece produced by `splitOnP` satisfies the predicate. -/
theorem splitOnP_pieces (p : Char → Bool) (xs : List Char) :
    ∀ l ∈ xs.splitOnP p, ∀ a ∈ l, p a = false := by
  induction xs with
  | nil =>
    intro l hl a ha
    simp only [List.splitOnP_nil, List.mem_singleton] at hl
    subst hl
    exact absurd ha (List.not_mem_nil a)
  | cons x xs ih =>
    intro l hl a ha
    rw [List.splitOnP_cons] at hl
    by_cases hp : p x
    · rw [if_pos hp] at hl
      rcases List.mem_cons.mp hl with h | h
      · subst h; exact absurd ha (List.not_mem_nil a)
      · exact ih l h a ha
    · rw [if_neg hp] at hl
      cases hsp : xs.splitOnP p with
      | nil => exact absurd hsp (List.splitOnP_ne_nil p xs)
      | cons hd tl =>
        rw [hsp] at hl
        simp only [List.modifyHead, List.mem_cons] at hl
        rcases hl with h | h
        · subst h
          rcases List.mem_cons.mp ha with h | h
          · subst h; exact Bool.of_not_eq_true hp
          · exact ih hd (hsp ▸ List.mem_cons_self hd tl) a h
        · exact ih l (hsp ▸ List.mem_cons_of_mem hd h) a ha

/-- Joining a separator-free entry onto the split of an inherited `PATH`
succeeds and yields the entry, one separator, then the original `PATH`
verbatim. -/
theorem join_paths_prepend (binStr old : String)
    (hbin : binStr.data.contains ':' = false) :
    join_paths (binStr :: split_paths old) = some (binStr ++ ":" ++ old) := by
  have hall : (binStr :: split_paths old).all (fun s => !(s.data.contains ':')) = true := by
    rw [List.all_eq_true]
    intro s hs
    rcases List.mem_cons.mp hs with h | h
    · subst h; simp only [Bool.not_eq_true']; exact hbin
    · simp only [split_paths, List.mem_map] at h
      obtain ⟨piece, hpiece, rfl⟩ := h
      have hnot : ∀ a ∈ piece, (a == ':') = false := fun a ha =>
        splitOnP_pieces (· == ':') old.data piece hpiece a ha
      have hmem : ':' ∉ piece := fun hm => by simpa using hnot ':' hm
      simp only [Bool.not_eq_true']
      simpa using hmem
  have hcomp : (String.data ∘ String.mk) = id := rfl
  have hdata : ((binStr :: split_paths old).map String.data)
      = binStr.data :: old.data.splitOn ':' := by
    simp [split_paths, List.map_map, hcomp]
  rw [join_paths, if_pos hall, hdata]
  have hne : old.data.splitOn ':' ≠ [] := List.splitOnP_ne_nil _ _
  obtain ⟨hd, tl, hsp⟩ := List.exists_cons_of_ne_nil hne
  have hflat : [':'].intercalate (binStr.data :: old.data.splitOn ':')
      = binStr.data ++ ':' :: old.data := by
    rw [hsp]
    have : [':'].intercalate (binStr.data :: hd :: tl)
        = binStr.data ++ [':'] ++ [':'].intercalate (hd :: tl) := by
      simp [List.intercalate, List.intersperse_cons_cons, List.flatten]
    rw [this, ← hsp, List.intercalate_splitOn]
    simp
  rw [hflat]
  apply congrArg some
  apply String.ext
  rw [String.data_append, String.data_append]
  simp

/-- Splitting an `activationCommand` into a closed frame and the variable
script bytes for counting. -/
theorem count_activation_parts (A script : List Nat) (b : Nat) :
    (A ++ [32] ++ [34] ++ script ++ [34] ++ [10]).count b
      = A.count b + script.count b + ([32, 34, 34, 10] : List Nat).count b := by
  simp [List.count_append, List.count_cons]
  omega

/-! ### Claims -/

/-- C2: `find_activate_script_path` builds, for each candidate directory name
in declared order, the path `base/name/bin/<script-for-dialect>` and returns
the first one that exists on disk (none when no candidate's script exists),
performing exactly one existence check per probed candidate and stopping at
the first hit; with directories `["venv", "env"]` and only `env/bin/activate`
existing, it returns the `env` path and never the `venv` path. -/
theorem claim_C2_find_activate_script_first_hit
    (settings : VenvSettingsContent) (base : List String)
    (fs : List String → Bool) :
    find_activate_script_path settings base fs
        = (scriptCandidates settings base).find? fs
      ∧ probeCandidates fs (scriptCandidates settings base)
          = (find_activate_script_path settings base fs,
              min (((scriptCandidates settings base).takeWhile
                    fun p => !fs p).length + 1)
                (scriptCandidates settings base).length)
      ∧ find_activate_script_path ⟨["venv", "env"], ActivateScript.Default⟩ []
          (fun p => p == ["env", "bin", "activate"])
          = some ["env", "bin", "activate"]
      ∧ find_activate_script_path ⟨["venv", "env"], ActivateScript.Default⟩ []
          (fun p => p == ["env", "bin", "activate"])
          ≠ some ["venv", "bin", "activate"] := by
  have h1 : find_activate_script_path settings base fs
      = (scriptCandidates settings base).find? fs := by
    rw [find_activate_script_path, scriptCandidates]
    exact findSome?_exists_eq_find? fs _ settings.directories
  exact ⟨h1, by rw [h1, probeCandidates_spec], by decide, by decide⟩

/-- Witness for C2: with `["venv", "env"]` declared and only
`env/bin/activate` existing, the probe never answers the `venv` path. -/
theorem claim_C2_find_activate_script_first_hit_witness :
    find_activate_script_path ⟨["venv", "env"], ActivateScript.Default⟩ []
        (fun p => p == ["env", "bin", "activate"])
      ≠ some ["venv", "bin", "activate"] :=
  (claim_C2_find_activate_script_first_hit
      ⟨["venv", "env"], ActivateScript.Default⟩ []
      (fun p => p == ["env", "bin", "activate"])).2.2.2

/-- C3: for every dialect and raw script-path byte sequence, the activation
command is the verb bytes, one space, one opening quote, the path bytes, one
closing quote and exactly one terminating newline; it begins with the bytes
of `overlay use "` when the dialect is Nushell and with the bytes of
`source "` for every other dialect, and the quote count exceeds the path's
own by exactly the wrapping pair. -/
theorem claim_C3_activation_command_bytes (settings : VenvSettingsContent)
    (script : List Nat) :
    activationCommand (get_activate_command settings) script
        = strBytes (get_activate_command settings)
            ++ 32 :: 34 :: (script ++ [34, 10])
      ∧ (settings.activate_script = ActivateScript.Nushell →
          (activationCommand (get_activate_command settings) script).take 13
            = strBytes "overlay use \"")
      ∧ (settings.activate_script ≠ ActivateScript.Nushell →
          (activationCommand (get_activate_command settings) script).take 8
            = strBytes "source \"")
      ∧ (activationCommand (get_activate_command settings) script).count 34
          = script.count 34 + 2
      ∧ (activationCommand (get_activate_command settings) script).count 10
          = script.count 10 + 1
      ∧ (activationCommand (get_activate_command settings) script).getLast?
          = some 10 := by
  obtain ⟨dirs, dialect⟩ := settings
  cases dialect <;>
    refine ⟨by simp [activationCommand], ?_, ?_, ?_, ?_, List.getLast?_concat _⟩ <;>
      first
        | (intro h; first | rfl | simp at h)
        | (rw [activationCommand, count_activation_parts]
           simp only [get_activate_command]
           first
             | (rw [show (strBytes "source").count 34 = 0 by decide,
                 show ([32, 34, 34, 10] : List Nat).count 34 = 2 by decide])
             | (rw [show (strBytes "source").count 10 = 0 by decide,
                 show ([32, 34, 34, 10] : List Nat).count 10 = 1 by decide])
             | (rw [show (strBytes "overlay use").count 34 = 0 by decide,
                 show ([32, 34, 34, 10] : List Nat).count 34 = 2 by decide])
             | (rw [show (strBytes "overlay use").count 10 = 0 by decide,
                 show ([32, 34, 34, 10] : List Nat).count 10 = 1 by decide])
           omega)

/-- Witness for C3: for the Nushell dialect and a script path containing a
space, the command bytes start with the bytes of `overlay use "`. -/
theorem claim_C3_activation_command_bytes_witness :
    (activationCommand (get_activate_command ⟨[], ActivateScript.Nushell⟩)
        (strBytes "/my venv/bin/activate.nu")).take 13
      = strBytes "overlay use \"" :=
  (claim_C3_activation_command_bytes ⟨[], ActivateScript.Nushell⟩
      (strBytes "/my venv/bin/activate.nu")).2.1 rfl

/-- C6: when process/PTY construction fails, the local branch of
`create_terminal` surfaces the failure to the caller, leaves the session
registry exactly as it was before the call, and writes no activation bytes. -/
theorem claim_C6_build_failure_leaves_registry
    (wd : Option (List String)) (st : Option SpawnInTerminal)
    (flw : List String → Option (Nat × List String))
    (gs : Option SettingsLocation → TerminalSettings)
    (fs : List String → Bool) (pv : Option String) (e : String)
    (handles : List Nat) :
    (create_terminal_local wd st flw gs fs pv (.error e) handles).result
        = .error e
      ∧ (create_terminal_local wd st flw gs fs pv (.error e) handles).local_handles
        = handles
      ∧ (create_terminal_local wd st flw gs fs pv (.error e) handles).inputBytes
        = [] :=
  ⟨rfl, rfl, rfl⟩

/-- Witness for C6: a concrete failed build leaves a concrete registry
untouched. -/
theorem claim_C6_build_failure_leaves_registry_witness :
    (create_terminal_local none none (fun _ => none)
        (fun _ => ⟨fun _ => none, none, Shell.System⟩) (fun _ => false) none
        (.error "pty construction failed") [4, 9]).local_handles = [4, 9] :=
  (claim_C6_build_failure_leaves_registry none none (fun _ => none)
      (fun _ => ⟨fun _ => none, none, Shell.System⟩) (fun _ => false) none
      "pty construction failed" [4, 9]).2.1

/-- C8: creating a session on a remote project with no resolvable remote
project id fails, the error surfaces to the caller of that creation call,
and the remote registry is untouched. -/
theorem claim_C8_missing_remote_id (new_terminal_id : Nat)
    (remote_pty : Except String Nat) (handles : List (Nat × Nat)) :
    (create_terminal_remote new_terminal_id none remote_pty handles).result
        = .error "remote project without a remote id"
      ∧ (create_terminal_remote new_terminal_id none remote_pty handles).remote_handles
        = handles :=
  ⟨rfl, rfl⟩

/-- Witness for C8: with no remote id, a concrete creation attempt reports
the missing-remote-id error. -/
theorem claim_C8_missing_remote_id_witness :
    (create_terminal_remote 0 none (.ok 5) [(3, 4)]).result
      = .error "remote project without a remote id" :=
  (claim_C8_missing_remote_id 0 (.ok 5) [(3, 4)]).1

/-- C10: the base directory for all virtual-environment probing is the
explicit working directory, or the empty path when none is given — for any
task descriptor alike — while the task's working-directory override feeds
only the settings-location lookup. -/
theorem claim_C10_venv_base_empty_without_cwd
    (st : Option SpawnInTerminal)
    (flw : List String → Option (Nat × List String))
    (gs : Option SettingsLocation → TerminalSettings)
    (fs : List String → Bool) (pv : Option String)
    (build : Except String Nat) (handles : List Nat) :
    (∀ wd, (create_terminal_local wd st flw gs fs pv build handles).venvBaseDirectory
        = wd.getD [])
      ∧ (create_terminal_local none st flw gs fs pv build handles).venvBaseDirectory
        = []
      ∧ (create_terminal_local none st flw gs fs pv build handles).settingsLocation
        = ((st.bind fun t => t.cwd).bind flw).map
            fun wt => SettingsLocation.mk wt.1 wt.2 := by
  refine ⟨fun wd => ?_, ?_, ?_⟩ <;> cases build <;> rfl

/-- Witness for C10: a task carrying a working-directory override that does
resolve to a worktree still leaves the venv base directory empty when no
explicit working directory is given. -/
theorem claim_C10_venv_base_empty_without_cwd_witness :
    (create_terminal_local none
        (some ⟨1, "f", "l", "c", "cmd", [], [], some ["w"]⟩)
        (fun _ => some (7, []))
        (fun _ => ⟨fun _ => none, none, Shell.System⟩)
        (fun _ => true) none (.ok 2) []).venvBaseDirectory = [] :=
  (claim_C10_venv_base_empty_without_cwd
      (some ⟨1, "f", "l", "c", "cmd", [], [], some ["w"]⟩)
      (fun _ => some (7, []))
      (fun _ => ⟨fun _ => none, none, Shell.System⟩)
      (fun _ => true) none (.ok 2) []).2.1

/-- C7: the remote input closure returns `Continue` on every successful
acknowledgment and `Break` on every failure; in the forwarding loop a failed
acknowledgment on any chunk stops forwarding (no subsequent chunk is sent)
and marks the session closed, while all-successful acknowledgments let every
chunk through with the session still open. -/
theorem claim_C7_remote_forwarding :
    (∀ u : Unit, remoteInputOutcome (some u) = ControlFlowSignal.Continue)
      ∧ remoteInputOutcome none = ControlFlowSignal.Break
      ∧ (∀ pre : List (List Nat × Option Unit), ∀ c : List Nat,
          ∀ post : List (List Nat × Option Unit),
          (∀ x ∈ pre, x.2.isSome = true) →
          forwardLoop (pre ++ (c, none) :: post) = (pre.map Prod.fst ++ [c], true))
      ∧ (∀ l : List (List Nat × Option Unit),
          (∀ x ∈ l, x.2.isSome = true) →
          forwardLoop l = (l.map Prod.fst, false)) := by
  refine ⟨fun u => rfl, rfl, ?_, ?_⟩
  · intro pre c post h
    induction pre with
    | nil => rfl
    | cons x pre ih =>
      obtain ⟨ch, resp⟩ := x
      obtain ⟨u, rfl⟩ := Option.isSome_iff_exists.mp
        (h (ch, resp) (List.mem_cons_self _ _))
      have hrest := ih fun y hy => h y (List.mem_cons_of_mem _ hy)
      simp [forwardLoop, remoteInputOutcome, hrest]
  · intro l h
    induction l with
    | nil => rfl
    | cons x l ih =>
      obtain ⟨ch, resp⟩ := x
      obtain ⟨u, rfl⟩ := Option.isSome_iff_exists.mp
        (h (ch, resp) (List.mem_cons_self _ _))
      have hrest := ih fun y hy => h y (List.mem_cons_of_mem _ hy)
      simp [forwardLoop, remoteInputOutcome, hrest]

/-- Witness for C7: with three queued chunks whose second acknowledgment
fails, exactly the first two chunks are forwarded and the session closes. -/
theorem claim_C7_remote_forwarding_witness :
    forwardLoop [([1], some ()), ([2], none), ([3], some ())]
      = ([[1], [2]], true) :=
  claim_C7_remote_forwarding.2.2.1 [([1], some ())] [2] [([3], some ())]
    (by decide)

/-- The settings location computed by the local branch of `create_terminal`:
the explicit working directory's worktree when it resolves, else the task
working directory's worktree, else none. -/
theorem create_terminal_local_settingsLocation
    (wd : Option (List String)) (st : Option SpawnInTerminal)
    (flw : List String → Option (Nat × List String))
    (gs : Option SettingsLocation → TerminalSettings)
    (fs : List String → Bool) (pv : Option String)
    (build : Except String Nat) (handles : List Nat) :
    (create_terminal_local wd st flw gs fs pv build handles).settingsLocation
      = ((wd.bind flw).orElse fun _ => (st.bind fun t => t.cwd).bind flw).map
          fun wt => SettingsLocation.mk wt.1 wt.2 := by
  cases build <;> rfl

/-- The environment handed to the builder for a task session: the task's
entries extended over the settings environment, then the venv injection when
virtual-environment settings are configured. -/
theorem create_terminal_local_envUsed_task
    (wd : Option (List String)) (t : SpawnInTerminal)
    (flw : List String → Option (Nat × List String))
    (gs : Option SettingsLocation → TerminalSettings)
    (fs : List String → Bool) (pv : Option String)
    (build : Except String Nat) (handles : List Nat) :
    (create_terminal_local wd (some t) flw gs fs pv build handles).envUsed
      = match (gs ((create_terminal_local wd (some t) flw gs fs pv build
            handles).settingsLocation)).detect_venv with
        | some ps =>
          set_python_venv_path_for_tasks ps (wd.getD []) fs pv
            (extendEnv (gs ((create_terminal_local wd (some t) flw gs fs pv
              build handles).settingsLocation)).env t.env)
        | none =>
          extendEnv (gs ((create_terminal_local wd (some t) flw gs fs pv
            build handles).settingsLocation)).env t.env := by
  cases build <;> rfl

/-- C5: in a session created from a task descriptor, the environment handed
to the builder is the settings-derived environment with the task's entries
merged on top, task entries winning on key collision (the last matching task
entry answers, otherwise the settings environment); for base `{A:"1"}` and
task override `{A:"2", B:"3"}` the merge yields `{A:"2", B:"3"}`. -/
theorem claim_C5_task_env_merge
    (wd : Option (List String)) (t : SpawnInTerminal)
    (flw : List String → Option (Nat × List String))
    (gs : Option SettingsLocation → TerminalSettings)
    (fs : List String → Bool) (pv : Option String)
    (build : Except String Nat) (handles : List Nat)
    (hvenv : (gs ((create_terminal_local wd (some t) flw gs fs pv build
        handles).settingsLocation)).detect_venv = none) :
    (∀ k, (create_terminal_local wd (some t) flw gs fs pv build handles).envUsed k
        = match (t.env.filter fun kv => kv.1 = k).getLast? with
          | some kv => some kv.2
          | none =>
            (gs ((create_terminal_local wd (some t) flw gs fs pv build
              handles).settingsLocation)).env k)
      ∧ (∀ k, extendEnv (fun s => if s = "A" then some "1" else none)
            [("A", "2"), ("B", "3")] k
          = if k = "A" then some "2" else if k = "B" then some "3" else none) := by
  constructor
  · intro k
    have h1 : (create_terminal_local wd (some t) flw gs fs pv build
          handles).envUsed
        = extendEnv (gs ((create_terminal_local wd (some t) flw gs fs pv build
            handles).settingsLocation)).env t.env := by
      rw [create_terminal_local_envUsed_task, hvenv]
    rw [h1, extendEnv_apply]
  · intro k
    by_cases hB : k = "B" <;> by_cases hA : k = "A" <;>
      simp_all [extendEnv, insertEnv]

/-- Witness for C5: a concrete task session whose settings have no
virtual-environment detection; the override entry for `A` wins. -/
theorem claim_C5_task_env_merge_witness :
    (create_terminal_local none
        (some ⟨7, "f", "l", "c", "prog", [], [("A", "2"), ("B", "3")], none⟩)
        (fun _ => none)
        (fun _ => ⟨fun s => if s = "A" then some "1" else none, none, Shell.System⟩)
        (fun _ => false) none (.ok 1) []).envUsed "A" = some "2" := by
  have h := (claim_C5_task_env_merge none
      ⟨7, "f", "l", "c", "prog", [], [("A", "2"), ("B", "3")], none⟩
      (fun _ => none)
      (fun _ => ⟨fun s => if s = "A" then some "1" else none, none, Shell.System⟩)
      (fun _ => false) none (.ok 1) [] rfl).1 "A"
  rw [h]
  rfl

/-- C4: when a virtual-environment root is found for a task session and a
`PATH` is inherited, the injected `PATH` is the root's `bin` directory, one
separator, then the inherited `PATH` verbatim — the remaining entries in
their original order; with `PATH=/usr/bin:/bin` and root `/p/env` the result
is `/p/env/bin:/usr/bin:/bin`. -/
theorem claim_C4_path_injection (settings : VenvSettingsContent)
    (base : List String) (fs : List String → Bool) (env : Env)
    (old : String) (p : List String)
    (hfind : ((settings.directories.map fun n => base ++ [n]).find? fs)
        = some p)
    (hbin : (pathToString (p ++ ["bin"])).data.contains ':' = false) :
    (set_python_venv_path_for_tasks settings base fs (some old) env) "PATH"
        = some (pathToString (p ++ ["bin"]) ++ ":" ++ old)
      ∧ (set_python_venv_path_for_tasks ⟨["venv", "env"], ActivateScript.Default⟩
            ["", "p"] (fun q => q == ["", "p", "env"]) (some "/usr/bin:/bin")
            (fun _ => none)) "PATH"
        = some "/p/env/bin:/usr/bin:/bin" := by
  constructor
  · simp only [set_python_venv_path_for_tasks]
    rw [findSome?_exists_eq_find? fs (fun n => base ++ [n]) settings.directories,
      hfind]
    simp only
    rw [join_paths_prepend (pathToString (p ++ ["bin"])) old hbin]
    simp [insertEnv]
  · decide

/-- Witness for C4: the concrete `/p/env` example discharges both
hypotheses. -/
theorem claim_C4_path_injection_witness :
    (set_python_venv_path_for_tasks ⟨["venv", "env"], ActivateScript.Default⟩
        ["", "p"] (fun q => q == ["", "p", "env"]) (some "/usr/bin:/bin")
        (fun _ => none)) "PATH"
      = some (pathToString (["", "p", "env"] ++ ["bin"]) ++ ":" ++ "/usr/bin:/bin") :=
  (claim_C4_path_injection ⟨["venv", "env"], ActivateScript.Default⟩
      ["", "p"] (fun q => q == ["", "p", "env"]) (fun _ => none)
      "/usr/bin:/bin" ["", "p", "env"] (by decide) (by decide)).1

/-- C9: for a task session with virtual-environment settings configured, the
internal probe returns the first existing candidate root in declared order;
when one exists `VIRTUAL_ENV` is set to that root's path, and when no
candidate exists the environment is returned unchanged (activation is
skipped, not an error). -/
theorem claim_C9_virtualenv_first_candidate (settings : VenvSettingsContent)
    (base : List String) (fs : List String → Bool) (pathVar : Option String)
    (env : Env) :
    ((settings.directories.findSome? fun n =>
        if fs (base ++ [n]) then some (base ++ [n]) else none)
        = (settings.directories.map fun n => base ++ [n]).find? fs)
      ∧ (∀ p, (settings.directories.map fun n => base ++ [n]).find? fs = some p →
          (set_python_venv_path_for_tasks settings base fs pathVar env)
              "VIRTUAL_ENV"
            = some (pathToString p))
      ∧ ((settings.directories.map fun n => base ++ [n]).find? fs = none →
          set_python_venv_path_for_tasks settings base fs pathVar env = env) := by
  refine ⟨findSome?_exists_eq_find? fs _ settings.directories, ?_, ?_⟩
  · intro p hp
    simp only [set_python_venv_path_for_tasks]
    rw [findSome?_exists_eq_find? fs (fun n => base ++ [n]) settings.directories,
      hp]
    cases pathVar with
    | none => simp [insertEnv]
    | some old =>
      cases hj : join_paths (pathToString (p ++ ["bin"]) :: split_paths old) with
      | none => simp [hj, insertEnv]
      | some np => simp [hj, insertEnv]
  · intro hnone
    simp only [set_python_venv_path_for_tasks]
    rw [findSome?_exists_eq_find? fs (fun n => base ++ [n]) settings.directories,
      hnone]

/-- Witness for C9: with only the `env` candidate existing, `VIRTUAL_ENV` is
the `env` root; with nothing existing, the environment comes back
untouched. -/
theorem claim_C9_virtualenv_first_candidate_witness :
    (set_python_venv_path_for_tasks ⟨["venv", "env"], ActivateScript.Default⟩
        ["", "p"] (fun q => q == ["", "p", "env"]) none (fun _ => none))
        "VIRTUAL_ENV"
      = some (pathToString ["", "p", "env"]) :=
  (claim_C9_virtualenv_first_candidate ⟨["venv", "env"], ActivateScript.Default⟩
      ["", "p"] (fun q => q == ["", "p", "env"]) none (fun _ => none)).2.1
    ["", "p", "env"] (by decide)

/-- Registry membership after any event sequence, generalized over the
starting registry: as long as the session id is created at most once across
the starting registry and the remaining events, membership coincides with the
reference liveness tracker. -/
theorem mem_foldl_stepRegistry (id : Nat) (events : List SessionEvent) :
    ∀ acc : List Nat,
      acc.count id + (createdIds events).count id ≤ 1 →
      (id ∈ events.foldl stepRegistry acc
        ↔ events.foldl (liveStep id) (decide (id ∈ acc)) = true) := by
  induction events with
  | nil =>
    intro acc h
    simp
  | cons e rest ih =>
    intro acc h
    cases e with
    | create i =>
      have hc : createdIds (SessionEvent.create i :: rest)
          = i :: createdIds rest := rfl
      rw [hc, List.count_cons] at h
      rw [List.foldl_cons, List.foldl_cons]
      by_cases hi : id = i
      · have hbeq : (i == id) = true := beq_iff_eq.mpr hi.symm
        simp only [hbeq, if_true] at h
        have acc0 : acc.count id = 0 := by omega
        have rest0 : (createdIds rest).count id = 0 := by omega
        subst hi
        have e1 : stepRegistry acc (SessionEvent.create id) = acc ++ [id] := rfl
        have e2 : liveStep id (decide (id ∈ acc)) (SessionEvent.create id)
            = true := by simp [liveStep]
        have h' : (acc ++ [id]).count id + (createdIds rest).count id ≤ 1 := by
          rw [List.count_append]
          simp [acc0, rest0]
        have hmem : decide (id ∈ acc ++ [id]) = true := by simp
        have hres := ih (acc ++ [id]) h'
        rw [hmem] at hres
        rw [e1, e2]
        exact hres
      · have hne : ¬ i = id := fun hh => hi hh.symm
        have hbeq : (i == id) = false := beq_eq_false_iff_ne.mpr hne
        simp only [hbeq, if_false] at h
        have e1 : stepRegistry acc (SessionEvent.create i) = acc ++ [i] := rfl
        have e2 : liveStep id (decide (id ∈ acc)) (SessionEvent.create i)
            = decide (id ∈ acc) := by
          simp [liveStep, hne]
        have h' : (acc ++ [i]).count id + (createdIds rest).count id ≤ 1 := by
          rw [List.count_append]
          have : List.count id [i] = 0 := by
            simp [List.count_singleton, hbeq]
          omega
        have hmem : decide (id ∈ acc ++ [i]) = decide (id ∈ acc) :=
          decide_eq_decide.mpr (by simp [hi])
        rw [e1, e2, ← hmem]
        exact ih (acc ++ [i]) h'
    | release i =>
      have hc : createdIds (SessionEvent.release i :: rest)
          = createdIds rest := rfl
      rw [hc] at h
      rw [List.foldl_cons, List.foldl_cons]
      have e1 : stepRegistry acc (SessionEvent.release i) = acc.erase i :=
        releaseHandle_eq_erase acc i
      by_cases hi : id = i
      · subst hi
        have e2 : liveStep id (decide (id ∈ acc)) (SessionEvent.release id)
            = false := by simp [liveStep]
        have hcnt : (acc.erase id).count id = acc.count id - 1 :=
          List.count_erase_self id acc
        have h' : (acc.erase id).count id + (createdIds rest).count id ≤ 1 := by
          omega
        have hmem : decide (id ∈ acc.erase id) = false := by
          rw [decide_eq_false_iff_not]
          exact List.count_eq_zero.mp (by omega)
        rw [e1, e2, ← hmem]
        exact ih (acc.erase id) h'
      · have hne : ¬ i = id := fun hh => hi hh.symm
        have e2 : liveStep id (decide (id ∈ acc)) (SessionEvent.release i)
            = decide (id ∈ acc) := by
          simp [liveStep, hne]
        have hbeq : (i == id) = false := beq_eq_false_iff_ne.mpr hne
        have hcnt : (acc.erase i).count id = acc.count id := by
          rw [List.count_erase, hbeq]
          simp
        have hmem : decide (id ∈ acc.erase i) = decide (id ∈ acc) :=
          decide_eq_decide.mpr (List.mem_erase_of_ne hi)
        have h' : (acc.erase i).count id + (createdIds rest).count id ≤ 1 := by
          rw [hcnt]
          exact h
        rw [e1, e2, ← hmem]
        exact ih (acc.erase i) h'

/-- C1: for every sequence of creations and releases (with globally unique
entity ids for creations), the registry contains exactly the still-live
sessions; each creation appends exactly one entry; releasing an absent id is
an idempotent no-op (no failure); and releasing a uniquely present id removes
its entry exactly once. -/
theorem claim_C1_registry_exact_live_set (events : List SessionEvent)
    (hnodup : (createdIds events).Nodup) :
    (∀ id, id ∈ runRegistry events ↔ liveAfter events id = true)
      ∧ (∀ handles id,
          stepRegistry handles (SessionEvent.create id) = handles ++ [id])
      ∧ (∀ handles id, id ∉ handles →
          stepRegistry handles (SessionEvent.release id) = handles)
      ∧ (∀ handles id, handles.count id = 1 →
          id ∉ stepRegistry handles (SessionEvent.release id)
            ∧ (stepRegistry handles (SessionEvent.release id)).length + 1
              = handles.length) := by
  refine ⟨?_, fun handles id => rfl, ?_, ?_⟩
  · intro id
    have h := mem_foldl_stepRegistry id events []
      (by simpa using List.nodup_iff_count_le_one.mp hnodup id)
    simpa [runRegistry, liveAfter] using h
  · intro handles id h
    show releaseHandle handles id = handles
    rw [releaseHandle_eq_erase, List.erase_of_not_mem h]
  · intro handles id h
    have hmem : id ∈ handles := by
      rw [← List.count_pos_iff]
      omega
    refine ⟨?_, ?_⟩
    · show id ∉ releaseHandle handles id
      rw [releaseHandle_eq_erase]
      exact List.count_eq_zero.mp (by rw [List.count_erase_self]; omega)
    · show (releaseHandle handles id).length + 1 = handles.length
      rw [releaseHandle_eq_erase]
      exact List.length_erase_add_one hmem

/-- Witness for C1: a concrete event sequence with unique creation ids —
session 1 is created, released (twice, the second a no-op), so it is absent
from the registry while its liveness tracker also reports dead. -/
theorem claim_C1_registry_exact_live_set_witness :
    (1 ∈ runRegistry [SessionEvent.create 1, SessionEvent.create 2,
        SessionEvent.release 1, SessionEvent.release 1, SessionEvent.create 3]
      ↔ liveAfter [SessionEvent.create 1, SessionEvent.create 2,
          SessionEvent.release 1, SessionEvent.release 1, SessionEvent.create 3] 1
        = true) :=
  (claim_C1_registry_exact_live_set
      [SessionEvent.create 1, SessionEvent.create 2, SessionEvent.release 1,
        SessionEvent.release 1, SessionEvent.create 3] (by decide)).1 1

end Terminals
